import Mathlib

/-!
# Verification of the sAI conversation pipeline backend

Shallow embedding of the Python backend (`src/backend`) of the sAI
spoken-dialogue server:

* `parseEmotionTag` embeds the emotion-tag extraction performed in
  `app.py` (the regex `EMOTION_PATTERN` of line 44 together with the
  match/strip logic of lines 156-160);
* `extract_amplitude_envelope` embeds the amplitude-envelope extraction of
  `app.py` lines 47-64, with the external MP3 decoding (pydub) abstracted
  into a `DecodedAudio` record of raw samples, channel count and frame rate,
  and machine floats modelled as real numbers;
* `sessionStep` embeds one iteration of the `/ws/conversation` WebSocket
  loop of `app.py` lines 92-198, with the external collaborators (base64
  decoding, audio normalisation, the Whisper ASR model, the LLM, the TTS
  service and the MP3 decoder) supplied as oracles, and the transport
  (success or failure of each `send_json`) supplied as an oracle as well;
  filesystem operations (writing and unlinking the temporary WAV file) are
  modelled as always succeeding;
* `TTSService_get_audio` embeds `services/tts_service.py` together with the
  request schema `schemas/tts.py`.

Python strings are modelled via their character lists (`String.data`);
`pyStrip` is Python's `str.strip`, restricted to ASCII whitespace.
-/

namespace SAI

/-! ## Python string helpers -/

/-- ASCII whitespace, as recognised by Python's `str.strip` and regex `\s`
(restricted to the ASCII range). -/
def isPySpace (c : Char) : Bool :=
  c = ' ' || c = '\t' || c = '\n' || c = '\r' || c = '\x0b' || c = '\x0c'

/-- Python `str.strip()` on a character list: drop ASCII whitespace from
both ends. -/
def pyStripChars (l : List Char) : List Char :=
  ((l.dropWhile isPySpace).reverse.dropWhile isPySpace).reverse

/-- Python `str.strip()`. -/
def pyStrip (s : String) : String := ⟨pyStripChars s.data⟩

/-- Lower-case an ASCII character (used for the `re.IGNORECASE` flag). -/
def asciiLower (c : Char) : Char :=
  if 'A' ≤ c ∧ c ≤ 'Z' then Char.ofNat (c.toNat + 32) else c

/-! ## Emotion tag parser (`app.py` lines 44 and 156-160)

`EMOTION_PATTERN = re.compile(r'^\[?(happy|sad|angry|surprised|concerned|neutral)\]?\s*', re.IGNORECASE)`
-/

/-- The emotion marker vocabulary, in the alternation order of
`EMOTION_PATTERN`. -/
def EMOTIONS : List String := ["happy", "sad", "angry", "surprised", "concerned", "neutral"]

/-- Case-insensitive prefix match of a (lower-case) marker against the
input: on success return the consumed input characters (original case
preserved, as `re` group capture does) and the remaining input. -/
def ciPrefixMatch : List Char → List Char → Option (List Char × List Char)
  | [], s => some ([], s)
  | _ :: _, [] => none
  | m :: ms, c :: cs =>
    if asciiLower c = m then
      match ciPrefixMatch ms cs with
      | some (w, rest) => some (c :: w, rest)
      | none => none
    else none

/-- Regex alternation `(happy|sad|...)`: try the markers in order, first
match wins. -/
def tryMarkers : List String → List Char → Option (List Char × List Char)
  | [], _ => none
  | m :: ms, s =>
    match ciPrefixMatch m.data s with
    | some r => some r
    | none => tryMarkers ms s

/-- The optional closing bracket `\]?`: consume a leading `]` if present. -/
def dropCloseBracket : List Char → List Char
  | [] => []
  | c :: r => if c = ']' then r else c :: r

/-- The part of `EMOTION_PATTERN` after the optional opening bracket:
the marker group, then `\]?`, then `\s*`.  Returns the group-1 capture and
the input remaining after the whole match. -/
def emotionCore (t : List Char) : Option (List Char × List Char) :=
  match tryMarkers EMOTIONS t with
  | none => none
  | some (marker, rest) =>
    some (marker, (dropCloseBracket rest).dropWhile isPySpace)

/-- `EMOTION_PATTERN.match`: `\[?` first tries to consume a leading `[`,
and on failure of the remainder backtracks to consuming nothing (which
also fails, since no marker starts with `[`). -/
def emotionMatch (s : List Char) : Option (List Char × List Char) :=
  match s with
  | [] => emotionCore []
  | c :: t =>
    if c = '[' then
      match emotionCore t with
      | some r => some r
      | none => emotionCore (c :: t)
    else emotionCore (c :: t)

/-- `app.py` lines 156-160: start from `emotion = 'neutral'`; if the
pattern matches, `emotion` is the group-1 capture (as matched, no case
change) and the reply text is the input from `match.end()` on. -/
def parseEmotionTag (text : String) : String × String :=
  match emotionMatch text.data with
  | some (marker, rest) => (⟨marker⟩, ⟨rest⟩)
  | none => ("neutral", text)

/-! ## Envelope extractor (`app.py` lines 47-64)

The pydub decoding step (`AudioSegment.from_mp3`, `get_array_of_samples`,
`channels`, `frame_rate`) is external; its output is modelled as a
`DecodedAudio` record.  Machine floats are modelled as real numbers. -/

/-- The result of decoding compressed audio: raw (interleaved) samples,
channel count and frame rate. -/
structure DecodedAudio where
  samples : List ℝ
  channels : ℕ
  frameRate : ℕ

/-- NumPy slicing `samples[::2]`: every other element, starting at index
0. -/
def everyOther {α : Type _} : List α → List α
  | [] => []
  | [x] => [x]
  | x :: _ :: rest => x :: everyOther rest

/-- `for i in range(0, len(samples), bucket_size): samples[i:i+bucket_size]`:
split a list into consecutive chunks of `k` elements, the final chunk
possibly shorter.  (For `k = 0` the Python code raises; the value here is
irrelevant and all theorems assume `0 < k`.) -/
def chunkList {α : Type _} (k : ℕ) : List α → List (List α)
  | [] => []
  | x :: xs => (x :: xs).take k :: chunkList k (xs.drop (k - 1))
termination_by l => l.length
decreasing_by simp; omega

/-- `int(audio_seg.frame_rate * bucket_ms / 1000)`. -/
def bucketSampleCount (frameRate bucket_ms : ℕ) : ℕ :=
  frameRate * bucket_ms / 1000

/-- `float(np.sqrt(np.mean(chunk ** 2)))`: root-mean-square of a chunk. -/
noncomputable def rmsOfChunk (chunk : List ℝ) : ℝ :=
  Real.sqrt ((chunk.map fun x => x ^ 2).sum / (chunk.length : ℝ))

/-- Python `max` over a nonempty list `x :: xs`. -/
def pyMax (x : ℝ) (xs : List ℝ) : ℝ := xs.foldl max x

/-- `app.py` lines 60-63: if there are buckets and the maximum RMS is
positive, divide every bucket value by the maximum; otherwise leave the
values as they are. -/
noncomputable def normalizeAmps : List ℝ → List ℝ
  | [] => []
  | a :: rest =>
    if pyMax a rest > 0 then (a :: rest).map fun x => x / pyMax a rest
    else a :: rest

/-- `extract_amplitude_envelope` (`app.py` lines 47-64), after the external
MP3 decode: de-interleave if stereo, bucket, RMS per bucket, normalize. -/
noncomputable def extract_amplitude_envelope (d : DecodedAudio)
    (bucket_ms : ℕ := 50) : List ℝ :=
  let samples := if d.channels = 2 then everyOther d.samples else d.samples
  let bucket_size := bucketSampleCount d.frameRate bucket_ms
  normalizeAmps ((chunkList bucket_size samples).map rmsOfChunk)

/-! ## Conversation session model (`app.py` lines 85-200)

One iteration of the WebSocket loop, as a function of the inbound message,
the external collaborators and the transport.  Each `send_json` consults
the transport oracle `t` at the current send index: `true` delivers the
message, `false` raises a disconnect.  Filesystem operations (the
`NamedTemporaryFile` export and `os.unlink`) are modelled as always
succeeding. -/

/-- Outbound protocol messages (the JSON objects sent by the server). -/
inductive OutMsg where
  | pong : OutMsg
  | processing : OutMsg
  | transcript (text : String) : OutMsg
  | error (message : String) : OutMsg
  | audio (audioB64 : String) (emotion : String) (amplitudes : List ℝ)
      (amplitudeBucketMs : ℕ) : OutMsg

/-- Observable events of one loop iteration, in order: successful sends,
temp-file lifecycle, and collaborator invocations. -/
inductive Event where
  | sent (m : OutMsg)
  | tempCreated
  | tempDeleted
  | sttCalled (wav : String)
  | llmCalled (prompt : String)
  | ttsCalled (text : String) (voiceId : Option String)
  | envelopeExtracted

/-- Inbound messages after JSON parsing: `malformed` is a JSON parse
failure, `other` an unrecognised `type` field. -/
inductive InMsg where
  | malformed
  | ping
  | audioData (audio : Option String) (format : String)
      (voiceId : Option String)
  | other

/-- What the transport delivers: a disconnect, or a text frame. -/
inductive Inbound where
  | disconnect
  | msg (m : InMsg)

/-- Whether the `while True` loop continues or breaks after the
iteration. -/
inductive LoopAction where
  | continueLoop
  | stopLoop
deriving DecidableEq

/-- Python exceptions relevant to the loop: `WebSocketDisconnect`, and any
other exception with its `str(e)` message. -/
inductive PyErr where
  | disconnect
  | exc (message : String)

/-- External collaborators, as oracles.  `whisper` is the faster-whisper
model of `stt.py` returning segment texts; the join-and-strip around it is
part of the source (`sttTranscribe` below). -/
structure Collab where
  decodeBase64 : String → Except String String
  decodeAudio : String → String → Except String String
  whisper : String → Except String (List String)
  llmGenerate : String → Except String String
  ttsSynthesize : String → Option String → Except String String
  decodeMp3 : String → Except String DecodedAudio
  encodeBase64 : String → String

/-- `stt.py` lines 17-20: `" ".join(seg.text for seg in segments).strip()`. -/
def sttTranscribe (segments : List String) : String :=
  pyStrip (String.intercalate " " segments)

/-- One `await websocket.send_json(m)`: consult the transport oracle at
send index `k`; on failure raise `WebSocketDisconnect`. -/
def trySend (t : ℕ → Bool) (k : ℕ) (m : OutMsg) :
    List Event × ℕ × Option PyErr :=
  if t k then ([.sent m], k + 1, none) else ([], k + 1, some .disconnect)

/-- `app.py` lines 133-184, the `try` body: transcribe, send transcript,
short-circuit on empty text, generate reply, parse emotion, synthesize,
extract envelope (at the default 50 ms bucket), send the audio message. -/
noncomputable def pipelineBody (c : Collab) (t : ℕ → Bool) (k : ℕ)
    (wav : String) (voiceId : Option String) :
    List Event × ℕ × Option PyErr :=
  match c.whisper wav with
  | .error e => ([.sttCalled wav], k, some (.exc e))
  | .ok segs =>
    let userText := sttTranscribe segs
    match trySend t k (.transcript userText) with
    | (ev1, k1, some err) => (.sttCalled wav :: ev1, k1, some err)
    | (ev1, k1, none) =>
      if pyStrip userText = "" then
        match trySend t k1 (.error "could not understand audio") with
        | (ev2, k2, r2) => (.sttCalled wav :: (ev1 ++ ev2), k2, r2)
      else
        match c.llmGenerate userText with
        | .error e =>
          (.sttCalled wav :: (ev1 ++ [.llmCalled userText]), k1, some (.exc e))
        | .ok replyRaw =>
          let emotion := (parseEmotionTag replyRaw).1
          let replyText := (parseEmotionTag replyRaw).2
          match c.ttsSynthesize replyText voiceId with
          | .error e =>
            (.sttCalled wav ::
              (ev1 ++ [.llmCalled userText, .ttsCalled replyText voiceId]),
              k1, some (.exc e))
          | .ok audio =>
            match c.decodeMp3 audio with
            | .error e =>
              (.sttCalled wav ::
                (ev1 ++ [.llmCalled userText, .ttsCalled replyText voiceId]),
                k1, some (.exc e))
            | .ok dec =>
              let amps := extract_amplitude_envelope dec
              match trySend t k1
                  (.audio (c.encodeBase64 audio) emotion amps 50) with
              | (ev3, k3, r3) =>
                (.sttCalled wav ::
                  (ev1 ++ [.llmCalled userText, .ttsCalled replyText voiceId,
                    .envelopeExtracted] ++ ev3), k3, r3)

/-- `app.py` lines 133-186: the `try` body followed by
`finally: os.unlink(tmp_path)`, which runs on every exit of the body. -/
noncomputable def runPipeline (c : Collab) (t : ℕ → Bool) (k : ℕ)
    (wav : String) (voiceId : Option String) :
    List Event × ℕ × Option PyErr :=
  match pipelineBody c t k wav voiceId with
  | (ev, k1, r) => (ev ++ [.tempDeleted], k1, r)

/-- `app.py` lines 107-186: the `audio_data` handler.  A missing or empty
payload answers `error("no audio data")`; otherwise `processing` is sent,
the payload is base64-decoded and normalised (pydub), the temporary WAV
file is created, and the pipeline runs. -/
noncomputable def handleAudioData (c : Collab) (t : ℕ → Bool) (k : ℕ)
    (audio : Option String) (format : String) (voiceId : Option String) :
    List Event × ℕ × Option PyErr :=
  match audio with
  | none => trySend t k (.error "no audio data")
  | some a =>
    if a = "" then trySend t k (.error "no audio data")
    else
      match trySend t k .processing with
      | (ev1, k1, some err) => (ev1, k1, some err)
      | (ev1, k1, none) =>
        match c.decodeBase64 a with
        | .error e => (ev1, k1, some (.exc e))
        | .ok bytes =>
          match c.decodeAudio bytes format with
          | .error e => (ev1, k1, some (.exc e))
          | .ok wav =>
            match runPipeline c t k1 wav voiceId with
            | (ev2, k2, r2) => (ev1 ++ (Event.tempCreated :: ev2), k2, r2)

/-- `app.py` lines 94-186: dispatch one parsed inbound message.  JSON
parse failures and unrecognised types fall through to the next
iteration. -/
noncomputable def handleMsg (c : Collab) (t : ℕ → Bool) (m : InMsg) :
    List Event × ℕ × Option PyErr :=
  match m with
  | .malformed => ([], 0, none)
  | .ping => trySend t 0 .pong
  | .audioData audio format voiceId => handleAudioData c t 0 audio format voiceId
  | .other => ([], 0, none)

/-- One iteration of the `while True` loop (`app.py` lines 92-198),
including the `except WebSocketDisconnect: break` and the catch-all
`except Exception` that sends a single `error` message (and breaks only
if that very send fails). -/
noncomputable def sessionStep (c : Collab) (t : ℕ → Bool) (inb : Inbound) :
    List Event × LoopAction :=
  match inb with
  | .disconnect => ([], .stopLoop)
  | .msg m =>
    match handleMsg c t m with
    | (ev, _, none) => (ev, .continueLoop)
    | (ev, _, some .disconnect) => (ev, .stopLoop)
    | (ev, k, some (.exc e)) =>
      match trySend t k (.error e) with
      | (ev2, _, none) => (ev ++ ev2, .continueLoop)
      | (ev2, _, some _) => (ev ++ ev2, .stopLoop)

/-- The outbound messages of a trace (successful sends, in order). -/
def isSent : Event → Option OutMsg
  | .sent m => some m
  | _ => none

/-- Outbound message sequence of an event trace. -/
def outMsgs (evs : List Event) : List OutMsg := evs.filterMap isSent

/-- Recognise LLM collaborator invocations in a trace. -/
def isLLMCall : Event → Bool
  | .llmCalled _ => true
  | _ => false

/-- Recognise TTS collaborator invocations in a trace. -/
def isTTSCall : Event → Bool
  | .ttsCalled _ _ => true
  | _ => false

/-- Recognise temp-artifact creations in a trace. -/
def isTempCreated : Event → Bool
  | .tempCreated => true
  | _ => false

/-- Recognise temp-artifact deletions in a trace. -/
def isTempDeleted : Event → Bool
  | .tempDeleted => true
  | _ => false

/-- A fully reliable transport: every send succeeds. -/
def allOk : ℕ → Bool := fun _ => true

/-- A collaborator assignment whose stages all succeed, used to witness
concrete runs. -/
def successCollab : Collab where
  decodeBase64 := fun _ => .ok "BYTES"
  decodeAudio := fun _ _ => .ok "WAV"
  whisper := fun _ => .ok ["hello there"]
  llmGenerate := fun _ => .ok "ok"
  ttsSynthesize := fun _ _ => .ok "MP3"
  decodeMp3 := fun _ => .ok ⟨[], 1, 22050⟩
  encodeBase64 := fun s => s

/-- Like `successCollab` but the LLM collaborator raises. -/
def failingLLMCollab : Collab :=
  { successCollab with llmGenerate := fun _ => .error "llm down" }

/-- Like `successCollab` but the ASR model recognises only whitespace. -/
def silentCollab : Collab :=
  { successCollab with whisper := fun _ => .ok ["", " "] }

/-! ## Spec-side vocabulary for the emotion parser claims -/

/-- Spec-side: the character list begins, case-insensitively, with the
marker word `e`. -/
def ciBegins (e : String) (t : List Char) : Prop :=
  (t.take e.data.length).map asciiLower = e.data

/-- Boolean comparison: the first list is an initial segment of the
second. -/
def leadsList : List Char → List Char → Bool
  | [], _ => true
  | _ :: _, [] => false
  | a :: as, b :: bs => a == b && leadsList as bs

/-! ## Companion HTTP TTS endpoint
(`services/tts_service.py`, `schemas/tts.py`, `api/tts.py`)

Float literals `0.5` / `0.75` are exactly representable and modelled as
rationals; the upstream ElevenLabs HTTP call is an oracle from payloads to
responses. -/

/-- JSON-ish values appearing in the `voice_settings` dict. -/
inductive JVal where
  | num (q : ℚ)
  | bool (b : Bool)
  | str (s : String)
deriving DecidableEq

/-- `schemas/tts.py`: the request model with its field defaults. -/
structure TTSRequest where
  text : String
  stability : ℚ := 1/2
  similarity_boost : ℚ := 3/4
  style : Option ℚ := none
  use_speaker_boost : Bool := true
deriving DecidableEq

/-- `services/tts_service.py` line 7. -/
def ELEVENLABS_MODEL_ID : String := "eleven_flash_v2_5"

/-- The `voice_settings` dict of `TTSService.get_audio`, in insertion
order; the `style` entry is spread in only when the request provides
one. -/
def voiceSettingsEntries (r : TTSRequest) : List (String × JVal) :=
  [("stability", JVal.num r.stability),
    ("similarity_boost", JVal.num r.similarity_boost)]
    ++ (match r.style with
        | some s => [("style", JVal.num s)]
        | none => [])
    ++ [("use_speaker_boost", JVal.bool r.use_speaker_boost)]

/-- The payload posted to the upstream service. -/
structure TTSPayload where
  text : String
  model_id : String
  voice_settings : List (String × JVal)
deriving DecidableEq

/-- Payload construction in `TTSService.get_audio` (lines 14-24). -/
def buildTTSPayload (r : TTSRequest) : TTSPayload :=
  { text := r.text
    model_id := ELEVENLABS_MODEL_ID
    voice_settings := voiceSettingsEntries r }

/-- The upstream HTTP response: status code, raw audio bytes (`content`)
and decoded text body (`text`). -/
structure UpstreamResponse where
  status_code : ℕ
  content : String
  body : String
deriving DecidableEq

/-- The `HTTPException` raised on upstream failure (lines 29-36): HTTP 502
with the upstream status code and body in the detail. -/
structure TTSError where
  status_code : ℕ
  message : String
  upstream_status : ℕ
  upstream_body : String
deriving DecidableEq

/-- `TTSService.get_audio` (`services/tts_service.py` lines 13-38): build
the payload, post it, fail with 502 on a non-200 upstream status, and
otherwise return the upstream bytes unchanged. -/
def TTSService_get_audio (eleven : TTSPayload → UpstreamResponse)
    (request : TTSRequest) : Except TTSError String :=
  let r := eleven (buildTTSPayload request)
  if r.status_code ≠ 200 then
    .error ⟨502, "ElevenLabs TTS failed", r.status_code, r.body⟩
  else
    .ok r.content

/-! ### Lemmas about the envelope computation -/

theorem le_pyMax_left (x : ℝ) (xs : List ℝ) : x ≤ pyMax x xs := by
  induction xs generalizing x with
  | nil => exact le_refl x
  | cons a rest ih =>
    calc x ≤ max x a := le_max_left x a
    _ ≤ pyMax (max x a) rest := ih (max x a)

theorem le_pyMax_of_mem (x y : ℝ) (xs : List ℝ) (hy : y ∈ xs) :
    y ≤ pyMax x xs := by
  induction xs generalizing x with
  | nil => cases hy
  | cons a rest ih =>
    rcases List.mem_cons.mp hy with h | h
    · subst h
      calc y ≤ max x y := le_max_right x y
      _ ≤ pyMax (max x y) rest := le_pyMax_left _ _
    · exact ih (max x a) h

theorem pyMax_mem (x : ℝ) (xs : List ℝ) : pyMax x xs ∈ x :: xs := by
  induction xs generalizing x with
  | nil => simp [pyMax]
  | cons a rest ih =>
    have hfold : pyMax x (a :: rest) = pyMax (max x a) rest := rfl
    rw [hfold]
    rcases List.mem_cons.mp (ih (max x a)) with h | h
    · rw [h]
      rcases max_choice x a with hm | hm <;> rw [hm] <;> simp
    · exact List.mem_cons_of_mem x (List.mem_cons_of_mem a h)

theorem pyMax_all_eq (x : ℝ) (xs : List ℝ) (h : ∀ y ∈ xs, y = x) :
    pyMax x xs = x := by
  have hmem := pyMax_mem x xs
  rcases List.mem_cons.mp hmem with hm | hm
  · exact hm
  · exact h _ hm

theorem rmsOfChunk_nonneg (chunk : List ℝ) : 0 ≤ rmsOfChunk chunk :=
  Real.sqrt_nonneg _

theorem rmsOfChunk_const (x : ℝ) (l : List ℝ) (hne : l ≠ [])
    (h : ∀ y ∈ l, y = x) : rmsOfChunk l = |x| := by
  have hl : l = List.replicate l.length x := List.eq_replicate_length.mpr h
  rw [rmsOfChunk]
  conv_lhs => rw [hl]
  have hlen : (l.length : ℝ) ≠ 0 := by
    simpa using List.length_pos.mpr hne |>.ne'
  rw [List.map_replicate, List.sum_replicate, nsmul_eq_mul,
    List.length_replicate, mul_div_cancel_left₀ _ hlen, Real.sqrt_sq_eq_abs]

theorem rmsOfChunk_all_zero (l : List ℝ) (h : ∀ y ∈ l, y = 0) :
    rmsOfChunk l = 0 := by
  rw [rmsOfChunk]
  have hsum : (l.map fun x => x ^ 2).sum = 0 := by
    apply List.sum_eq_zero
    intro y hy
    rcases List.mem_map.mp hy with ⟨z, hz, rfl⟩
    rw [h z hz]; ring
  rw [hsum, zero_div, Real.sqrt_zero]

theorem normalizeAmps_length (amps : List ℝ) :
    (normalizeAmps amps).length = amps.length := by
  match amps with
  | [] => rfl
  | a :: rest => rw [normalizeAmps]; split <;> simp

theorem normalizeAmps_mem_Icc (amps : List ℝ) (h0 : ∀ a ∈ amps, 0 ≤ a) :
    ∀ v ∈ normalizeAmps amps, 0 ≤ v ∧ v ≤ 1 := by
  match amps with
  | [] => intro v hv; cases hv
  | a :: rest =>
    rw [normalizeAmps]
    split
    · next hpos =>
      intro v hv
      rcases List.mem_map.mp hv with ⟨y, hy, rfl⟩
      refine ⟨div_nonneg (h0 y hy) (le_of_lt hpos), ?_⟩
      rw [div_le_one hpos]
      rcases List.mem_cons.mp hy with h | h
      · subst h; exact le_pyMax_left _ _
      · exact le_pyMax_of_mem _ _ _ h
    · next hnpos =>
      intro v hv
      have hv0 : 0 ≤ v := h0 v hv
      have hvmax : v ≤ pyMax a rest := by
        rcases List.mem_cons.mp hv with h | h
        · subst h; exact le_pyMax_left _ _
        · exact le_pyMax_of_mem _ _ _ h
      have : v ≤ 0 := le_trans hvmax (not_lt.mp hnpos)
      constructor
      · exact hv0
      · linarith

theorem normalizeAmps_all_one (x : ℝ) (hx : 0 < x) (amps : List ℝ)
    (h : ∀ a ∈ amps, a = x) : ∀ v ∈ normalizeAmps amps, v = 1 := by
  match amps with
  | [] => intro v hv; cases hv
  | a :: rest =>
    rw [normalizeAmps]
    have hmax : pyMax a rest = x := by
      have ha : a = x := h a (List.mem_cons_self a rest)
      subst ha
      exact pyMax_all_eq a rest fun y hy =>
        (h y (List.mem_cons_of_mem a hy)).trans (h a (List.mem_cons_self a rest)).symm
    rw [hmax, if_pos hx]
    intro v hv
    rcases List.mem_map.mp hv with ⟨y, hy, rfl⟩
    rw [h y hy, div_self hx.ne']

theorem normalizeAmps_all_zero (amps : List ℝ) (h : ∀ a ∈ amps, a = 0) :
    ∀ v ∈ normalizeAmps amps, v = 0 := by
  match amps with
  | [] => intro v hv; cases hv
  | a :: rest =>
    rw [normalizeAmps]
    have hmax : pyMax a rest = 0 := by
      have ha : a = 0 := h a (List.mem_cons_self a rest)
      subst ha
      exact pyMax_all_eq 0 rest fun y hy => h y (List.mem_cons_of_mem 0 hy)
    rw [hmax, if_neg (lt_irrefl 0)]
    exact h

theorem chunkList_length {α : Type _} (k : ℕ) (hk : 0 < k) :
    ∀ (n : ℕ) (l : List α), l.length ≤ n →
      (chunkList k l).length = (l.length + k - 1) / k := by
  intro n
  induction n with
  | zero =>
    intro l hl
    have hnil : l = [] := List.length_eq_zero.mp (Nat.le_zero.mp hl)
    subst hnil
    have hdv : (0 + k - 1) / k = 0 := Nat.div_eq_of_lt (by omega)
    simp only [chunkList, List.length_nil, hdv]
  | succ n ih =>
    intro l hl
    match l with
    | [] =>
      have hdv : (0 + k - 1) / k = 0 := Nat.div_eq_of_lt (by omega)
      simp only [chunkList, List.length_nil, hdv]
    | x :: xs =>
      rw [chunkList]
      obtain ⟨m, rfl⟩ : ∃ m, k = m + 1 := ⟨k - 1, by omega⟩
      have hdrop : (xs.drop (m + 1 - 1)).length ≤ n := by
        simp only [List.length_drop]
        simp at hl
        omega
      rw [List.length_cons, ih _ hdrop]
      simp only [List.length_drop, List.length_cons]
      have h2 : xs.length + 1 + (m + 1) - 1 = xs.length + (m + 1) := by omega
      rw [h2, Nat.add_div_right _ (by omega)]
      rcases le_or_lt m xs.length with hc | hc
      · have h1 : xs.length - (m + 1 - 1) + (m + 1) - 1 = xs.length := by omega
        rw [h1]
      · have h1 : xs.length - (m + 1 - 1) + (m + 1) - 1 = m := by omega
        rw [h1, Nat.div_eq_of_lt (by omega), Nat.div_eq_of_lt (by omega)]

theorem chunkList_mem_ne_nil {α : Type _} (k : ℕ) (hk : 0 < k) :
    ∀ (n : ℕ) (l : List α), l.length ≤ n →
      ∀ c ∈ chunkList k l, c ≠ [] := by
  intro n
  induction n with
  | zero =>
    intro l hl
    have : l = [] := List.length_eq_zero.mp (Nat.le_zero.mp hl)
    subst this
    simp [chunkList]
  | succ n ih =>
    intro l hl c hc
    match l with
    | [] => simp [chunkList] at hc
    | x :: xs =>
      rw [chunkList] at hc
      rcases List.mem_cons.mp hc with h | h
      · subst h
        intro hq
        rcases List.take_eq_nil_iff.mp hq with h0 | h0
        · omega
        · exact List.cons_ne_nil x xs h0
      · have hdrop : (xs.drop (k - 1)).length ≤ n := by
          simp only [List.length_drop]
          simp at hl
          omega
        exact ih _ hdrop c h

theorem chunkList_mem_subset {α : Type _} (k : ℕ) :
    ∀ (n : ℕ) (l : List α), l.length ≤ n →
      ∀ c ∈ chunkList k l, ∀ x ∈ c, x ∈ l := by
  intro n
  induction n with
  | zero =>
    intro l hl
    have : l = [] := List.length_eq_zero.mp (Nat.le_zero.mp hl)
    subst this
    simp [chunkList]
  | succ n ih =>
    intro l hl c hc x hx
    match l with
    | [] => simp [chunkList] at hc
    | y :: ys =>
      rw [chunkList] at hc
      rcases List.mem_cons.mp hc with h | h
      · subst h
        exact List.mem_of_mem_take hx
      · have hdrop : (ys.drop (k - 1)).length ≤ n := by
          simp only [List.length_drop]
          simp at hl
          omega
        have := ih _ hdrop c h x hx
        exact List.mem_cons_of_mem y (List.mem_of_mem_drop this)

/-- C2: for every decoded sample sequence and bucket duration (with a
positive bucket sample count, as holds for every real sample rate), the
envelope extractor produces `ceil(totalSamples / bucketSampleCount)`
buckets, every output value lies in `[0, 1]`, constant-amplitude input
yields all values `1.0`, all-zero input yields all values `0.0`, and empty
input yields an empty envelope. -/
theorem C2_envelope_normalization (samples : List ℝ) (frameRate bucket_ms : ℕ)
    (hk : 0 < bucketSampleCount frameRate bucket_ms) :
    (extract_amplitude_envelope ⟨samples, 1, frameRate⟩ bucket_ms).length
        = (samples.length + bucketSampleCount frameRate bucket_ms - 1)
            / bucketSampleCount frameRate bucket_ms
    ∧ (∀ v ∈ extract_amplitude_envelope ⟨samples, 1, frameRate⟩ bucket_ms,
        0 ≤ v ∧ v ≤ 1)
    ∧ (∀ c : ℝ, c ≠ 0 → (∀ x ∈ samples, x = c) →
        ∀ v ∈ extract_amplitude_envelope ⟨samples, 1, frameRate⟩ bucket_ms,
          v = 1)
    ∧ ((∀ x ∈ samples, x = (0 : ℝ)) →
        ∀ v ∈ extract_amplitude_envelope ⟨samples, 1, frameRate⟩ bucket_ms,
          v = 0)
    ∧ (samples = [] →
        extract_amplitude_envelope ⟨samples, 1, frameRate⟩ bucket_ms = []) := by
  have henv : extract_amplitude_envelope ⟨samples, 1, frameRate⟩ bucket_ms
      = normalizeAmps ((chunkList (bucketSampleCount frameRate bucket_ms)
          samples).map rmsOfChunk) := by
    rw [extract_amplitude_envelope]
    norm_num
  refine ⟨?_, ?_, ?_, ?_, ?_⟩
  · rw [henv, normalizeAmps_length, List.length_map,
      chunkList_length _ hk samples.length samples le_rfl]
  · rw [henv]
    apply normalizeAmps_mem_Icc
    intro a ha
    rcases List.mem_map.mp ha with ⟨c, _, rfl⟩
    exact rmsOfChunk_nonneg c
  · intro c hc hconst
    rw [henv]
    apply normalizeAmps_all_one |c| (abs_pos.mpr hc)
    intro a ha
    rcases List.mem_map.mp ha with ⟨ch, hch, rfl⟩
    refine rmsOfChunk_const c ch ?_ ?_
    · exact chunkList_mem_ne_nil _ hk samples.length samples le_rfl ch hch
    · intro y hy
      exact hconst y
        (chunkList_mem_subset _ samples.length samples le_rfl ch hch y hy)
  · intro hzero
    rw [henv]
    apply normalizeAmps_all_zero
    intro a ha
    rcases List.mem_map.mp ha with ⟨ch, hch, rfl⟩
    refine rmsOfChunk_all_zero ch ?_
    intro y hy
    exact hzero y
      (chunkList_mem_subset _ samples.length samples le_rfl ch hch y hy)
  · intro hnil
    subst hnil
    rw [henv]
    simp [chunkList, normalizeAmps]

/-- Witness for C2 at a concrete input: three constant samples at
1000 samples per second with 50 ms buckets (bucket size 50). -/
theorem C2_envelope_normalization_witness :
    0 < bucketSampleCount 1000 50 ∧
    (extract_amplitude_envelope ⟨[(1 : ℝ), 1, 1], 1, 1000⟩ 50).length
        = ([(1 : ℝ), 1, 1].length + bucketSampleCount 1000 50 - 1)
            / bucketSampleCount 1000 50 :=
  ⟨by decide, (C2_envelope_normalization [1, 1, 1] 1000 50 (by decide)).1⟩

/-- C6: an input decoded to more than one channel (which, for MP3 audio,
means exactly two interleaved channels) is reduced to a single channel by
taking every other raw sample before bucketing and RMS computation: the
extractor's output equals the mono pipeline applied to
`everyOther samples`. -/
theorem C6_channel_reduction (d : DecodedAudio) (bucket_ms : ℕ)
    (hmulti : 1 < d.channels) (hmp3 : d.channels ≤ 2) :
    extract_amplitude_envelope d bucket_ms
      = extract_amplitude_envelope ⟨everyOther d.samples, 1, d.frameRate⟩
          bucket_ms := by
  have h2 : d.channels = 2 := by omega
  rw [extract_amplitude_envelope, extract_amplitude_envelope, h2]
  norm_num

/-- Witness for C6 at a concrete stereo input. -/
theorem C6_channel_reduction_witness :
    1 < (⟨[(1 : ℝ), 2, 3], 2, 16000⟩ : DecodedAudio).channels ∧
    extract_amplitude_envelope ⟨[(1 : ℝ), 2, 3], 2, 16000⟩ 50
      = extract_amplitude_envelope
          ⟨everyOther [(1 : ℝ), 2, 3], 1, 16000⟩ 50 :=
  ⟨by decide, C6_channel_reduction ⟨[1, 2, 3], 2, 16000⟩ 50 (by decide) (by decide)⟩

/-- C9: the companion HTTP TTS endpoint accepts
`{text, stability, similarityBoost, style?, useSpeakerBoost}` with
defaults `0.5`, `0.75`, absent, `true`; the `style` entry appears in the
upstream payload only when provided; a 200 upstream response returns the
raw upstream bytes exactly (no envelope extraction, no emotion parsing);
any other status fails with a 502 error carrying the upstream status and
body. -/
theorem C9_tts_endpoint (eleven : TTSPayload → UpstreamResponse) :
    (∀ s : String,
      ({ text := s } : TTSRequest).stability = 1/2
      ∧ ({ text := s } : TTSRequest).similarity_boost = 3/4
      ∧ ({ text := s } : TTSRequest).style = none
      ∧ ({ text := s } : TTSRequest).use_speaker_boost = true)
    ∧ (∀ r : TTSRequest, (buildTTSPayload r).text = r.text
        ∧ (buildTTSPayload r).model_id = ELEVENLABS_MODEL_ID
        ∧ (r.style = none → (buildTTSPayload r).voice_settings
            = [("stability", JVal.num r.stability),
               ("similarity_boost", JVal.num r.similarity_boost),
               ("use_speaker_boost", JVal.bool r.use_speaker_boost)])
        ∧ (∀ q : ℚ, r.style = some q → (buildTTSPayload r).voice_settings
            = [("stability", JVal.num r.stability),
               ("similarity_boost", JVal.num r.similarity_boost),
               ("style", JVal.num q),
               ("use_speaker_boost", JVal.bool r.use_speaker_boost)]))
    ∧ (∀ r : TTSRequest, (eleven (buildTTSPayload r)).status_code = 200 →
        TTSService_get_audio eleven r
          = .ok (eleven (buildTTSPayload r)).content)
    ∧ (∀ r : TTSRequest, (eleven (buildTTSPayload r)).status_code ≠ 200 →
        TTSService_get_audio eleven r
          = .error ⟨502, "ElevenLabs TTS failed",
              (eleven (buildTTSPayload r)).status_code,
              (eleven (buildTTSPayload r)).body⟩) := by
  refine ⟨fun s => ⟨rfl, rfl, rfl, rfl⟩, fun r => ⟨rfl, rfl, ?_, ?_⟩, ?_, ?_⟩
  · intro h
    simp [buildTTSPayload, voiceSettingsEntries, h]
  · intro q h
    simp [buildTTSPayload, voiceSettingsEntries, h]
  · intro r h
    simp [TTSService_get_audio, h]
  · intro r h
    simp [TTSService_get_audio, h]

/-- Witness for C9 with a concrete upstream oracle answering 200. -/
theorem C9_tts_endpoint_witness :
    ((fun _ => (⟨200, "AUDIO", ""⟩ : UpstreamResponse))
        (buildTTSPayload { text := "hi" })).status_code = 200
    ∧ TTSService_get_audio (fun _ => ⟨200, "AUDIO", ""⟩) { text := "hi" }
        = .ok ((fun _ => (⟨200, "AUDIO", ""⟩ : UpstreamResponse))
            (buildTTSPayload { text := "hi" })).content :=
  ⟨rfl, (C9_tts_endpoint (fun _ => ⟨200, "AUDIO", ""⟩)).2.2.1
    { text := "hi" } rfl⟩

/-! ### Lemmas about the emotion tag parser -/

theorem ciPrefixMatch_iff (m : List Char) :
    ∀ (t v r : List Char),
      ciPrefixMatch m t = some (v, r) ↔ t = v ++ r ∧ v.map asciiLower = m := by
  induction m with
  | nil =>
    intro t v r
    rw [ciPrefixMatch]
    constructor
    · intro h
      simp only [Option.some.injEq, Prod.mk.injEq] at h
      obtain ⟨rfl, rfl⟩ := h
      exact ⟨rfl, rfl⟩
    · rintro ⟨rfl, hm⟩
      have hv : v = [] := List.map_eq_nil_iff.mp hm
      subst hv
      rfl
  | cons mc ms ih =>
    intro t v r
    match t with
    | [] =>
      rw [ciPrefixMatch]
      constructor
      · intro h; cases h
      · rintro ⟨h, hm⟩
        match v with
        | [] => simp at hm
        | a :: as => simp at h
    | c :: cs =>
      rw [ciPrefixMatch]
      by_cases hc : asciiLower c = mc
      · rw [if_pos hc]
        constructor
        · intro h
          match hrec : ciPrefixMatch ms cs with
          | none => rw [hrec] at h; cases h
          | some (w, rest) =>
            rw [hrec] at h
            simp only [Option.some.injEq, Prod.mk.injEq] at h
            obtain ⟨hv, hr⟩ := h
            obtain ⟨hcs, hw⟩ := (ih cs w rest).mp hrec
            subst hv
            subst hr
            constructor
            · rw [List.cons_append, hcs]
            · rw [List.map_cons, hw, hc]
        · rintro ⟨ht, hm⟩
          match v with
          | [] => simp at hm
          | a :: as =>
            simp only [List.map_cons, List.cons.injEq] at hm
            obtain ⟨ham, hasm⟩ := hm
            simp only [List.cons_append, List.cons.injEq] at ht
            obtain ⟨rfl, hcs⟩ := ht
            rw [(ih cs as r).mpr ⟨hcs, hasm⟩]
      · rw [if_neg hc]
        constructor
        · intro h; cases h
        · rintro ⟨ht, hm⟩
          match v with
          | [] => simp at hm
          | a :: as =>
            simp only [List.map_cons, List.cons.injEq] at hm
            simp only [List.cons_append, List.cons.injEq] at ht
            obtain ⟨rfl, -⟩ := ht
            exact absurd hm.1 hc

theorem leadsList_append (x z : List Char) : leadsList x (x ++ z) = true := by
  induction x with
  | nil => rfl
  | cons a as ih => simp [leadsList, ih]

/-- No marker word is an initial segment of a different marker word. -/
theorem emotions_mutually_exclusive :
    ∀ e ∈ EMOTIONS, ∀ f ∈ EMOTIONS, leadsList e.data f.data = true → e = f := by
  decide

theorem emotions_ne_nil : ∀ e ∈ EMOTIONS, e.data ≠ [] := by decide

theorem emotions_head_no_bracket :
    ∀ e ∈ EMOTIONS, e.data.head? ≠ some '[' := by decide

/-- The alternation succeeds on `v ++ r` with capture `v` whenever `v` is
a case variant of some marker in the vocabulary. -/
theorem tryMarkers_eq_some :
    ∀ (ms : List String), (∀ x ∈ ms, x ∈ EMOTIONS) →
      ∀ e ∈ ms, ∀ (v r : List Char), v.map asciiLower = e.data →
        tryMarkers ms (v ++ r) = some (v, r) := by
  intro ms
  induction ms with
  | nil => intro _ e he; cases he
  | cons m ms' ih =>
    intro hsub e he v r hv
    rw [tryMarkers]
    have hmE : m ∈ EMOTIONS := hsub m (List.mem_cons_self m ms')
    have heE : e ∈ EMOTIONS := hsub e he
    match hm : ciPrefixMatch m.data (v ++ r) with
    | some (v', r') =>
      obtain ⟨ht, hv'⟩ := (ciPrefixMatch_iff m.data (v ++ r) v' r').mp hm
      have heqm : e = m ∧ v' = v ∧ r' = r := by
        rcases List.append_eq_append_iff.mp ht with ⟨z, hz1, hz2⟩ | ⟨z, hz1, hz2⟩
        · -- v' = v ++ z
          have hlead : leadsList e.data m.data = true := by
            rw [← hv, ← hv', hz1, List.map_append]
            exact leadsList_append _ _
          have hem : e = m := emotions_mutually_exclusive e heE m hmE hlead
          have hzn : z = [] := by
            have hlen : v'.length = v.length := by
              have h1 : v'.length = m.data.length := by
                rw [← hv']; exact (List.length_map v' asciiLower).symm
              have h2 : v.length = e.data.length := by
                rw [← hv]; exact (List.length_map v asciiLower).symm
              rw [h1, h2, hem]
            have : v.length + z.length = v.length := by
              rw [← List.length_append, ← hz1, hlen]
            have hz0 : z.length = 0 := by omega
            exact List.length_eq_zero.mp hz0
          subst hzn
          have hvv : v' = v := by rw [hz1, List.append_nil]
          subst hvv
          exact ⟨hem, rfl, (List.append_cancel_left ht).symm⟩
        · -- v = v' ++ z
          have hlead : leadsList m.data e.data = true := by
            rw [← hv, ← hv', hz1, List.map_append]
            exact leadsList_append _ _
          have hem : m = e := emotions_mutually_exclusive m hmE e heE hlead
          have hzn : z = [] := by
            have hlen : v'.length = v.length := by
              have h1 : v'.length = m.data.length := by
                rw [← hv']; exact (List.length_map v' asciiLower).symm
              have h2 : v.length = e.data.length := by
                rw [← hv]; exact (List.length_map v asciiLower).symm
              rw [h1, h2, hem]
            have : v'.length + z.length = v'.length := by
              rw [← List.length_append, ← hz1, hlen]
            have hz0 : z.length = 0 := by omega
            exact List.length_eq_zero.mp hz0
          subst hzn
          have hvv : v = v' := by rw [hz1, List.append_nil]
          subst hvv
          exact ⟨hem.symm, rfl, (List.append_cancel_left ht).symm⟩
      obtain ⟨he1, he2, he3⟩ := heqm
      rw [he2, he3]
    | none =>
      rcases List.mem_cons.mp he with he' | he'
      · subst he'
        have := (ciPrefixMatch_iff e.data (v ++ r) v r).mpr ⟨rfl, hv⟩
        rw [this] at hm
        cases hm
      · exact ih (fun x hx => hsub x (List.mem_cons_of_mem m hx)) e he' v r hv

/-- Conversely, a successful alternation comes from a marker in the
list. -/
theorem tryMarkers_some_exists :
    ∀ (ms : List String) (t v r : List Char),
      tryMarkers ms t = some (v, r) →
        ∃ e ∈ ms, t = v ++ r ∧ v.map asciiLower = e.data := by
  intro ms
  induction ms with
  | nil => intro t v r h; rw [tryMarkers] at h; cases h
  | cons m ms' ih =>
    intro t v r h
    rw [tryMarkers] at h
    match hm : ciPrefixMatch m.data t with
    | some (v', r') =>
      rw [hm] at h
      simp only [Option.some.injEq, Prod.mk.injEq] at h
      obtain ⟨h1, h2⟩ := h
      obtain ⟨ht, hv'⟩ := (ciPrefixMatch_iff m.data t v' r').mp hm
      refine ⟨m, List.mem_cons_self m ms', ?_, ?_⟩
      · rw [← h1, ← h2]; exact ht
      · rw [← h1]; exact hv'
    | none =>
      rw [hm] at h
      obtain ⟨e, he, h1, h2⟩ := ih t v r h
      exact ⟨e, List.mem_cons_of_mem m he, h1, h2⟩

theorem dropWhile_ws_append (w rest : List Char)
    (hw : ∀ c ∈ w, isPySpace c = true)
    (hr : ∀ c, rest.head? = some c → isPySpace c = false) :
    (w ++ rest).dropWhile isPySpace = rest := by
  induction w with
  | nil =>
    simp only [List.nil_append]
    match rest with
    | [] => rfl
    | c :: rs =>
      rw [List.dropWhile_cons, hr c rfl]
      simp
  | cons a as ih =>
    rw [List.cons_append, List.dropWhile_cons, hw a (List.mem_cons_self a as)]
    simp only [if_true]
    exact ih fun c hc => hw c (List.mem_cons_of_mem a hc)

theorem emotionCore_some_of (e : String) (he : e ∈ EMOTIONS)
    (variant w rest : List Char) (br2 : Bool)
    (hv : variant.map asciiLower = e.data)
    (hw : ∀ c ∈ w, isPySpace c = true)
    (hr : ∀ c, rest.head? = some c → isPySpace c = false)
    (hbr2 : br2 = false → w = [] → rest.head? ≠ some ']') :
    emotionCore (variant ++ ((if br2 then [']'] else []) ++ (w ++ rest)))
      = some (variant, rest) := by
  have htry := tryMarkers_eq_some EMOTIONS (fun x hx => hx) e he variant
      ((if br2 then [']'] else []) ++ (w ++ rest)) hv
  have hdrop : (dropCloseBracket
      ((if br2 then [']'] else []) ++ (w ++ rest))).dropWhile isPySpace
      = rest := by
    cases br2 with
    | true =>
      have hz : ((if (true : Bool) then [']'] else []) ++ (w ++ rest))
          = ']' :: (w ++ rest) := by simp
      rw [hz]
      have hdb : dropCloseBracket (']' :: (w ++ rest)) = w ++ rest := by
        simp [dropCloseBracket]
      rw [hdb]
      exact dropWhile_ws_append w rest hw hr
    | false =>
      have hz : ((if (false : Bool) then [']'] else []) ++ (w ++ rest))
          = w ++ rest := by simp
      rw [hz]
      match w with
      | [] =>
        match rest with
        | [] => rfl
        | c :: rs =>
          have hc : ¬ c = ']' := by
            intro hceq
            exact (hbr2 rfl rfl) (by simp [hceq])
          rw [List.nil_append, dropCloseBracket, if_neg hc,
            List.dropWhile_cons, hr c rfl]
          simp
      | a :: as =>
        have ha : isPySpace a = true := hw a (List.mem_cons_self a as)
        have hane : ¬ a = ']' := by
          intro hh
          rw [hh] at ha
          exact absurd ha (by decide)
        rw [List.cons_append, dropCloseBracket, if_neg hane]
        exact dropWhile_ws_append (a :: as) rest hw hr
  simp only [emotionCore, htry]
  rw [hdrop]

theorem emotionMatch_decomposed (e : String) (he : e ∈ EMOTIONS)
    (br1 br2 : Bool) (variant w rest : List Char)
    (hv : variant.map asciiLower = e.data)
    (hw : ∀ c ∈ w, isPySpace c = true)
    (hr : ∀ c, rest.head? = some c → isPySpace c = false)
    (hbr2 : br2 = false → w = [] → rest.head? ≠ some ']') :
    emotionMatch ((if br1 then ['['] else []) ++ (variant
        ++ ((if br2 then [']'] else []) ++ (w ++ rest))))
      = some (variant, rest) := by
  have hcore := emotionCore_some_of e he variant w rest br2 hv hw hr hbr2
  cases br1 with
  | true =>
    have hz : ((if (true : Bool) then ['['] else []) ++ (variant
        ++ ((if br2 then [']'] else []) ++ (w ++ rest))))
        = '[' :: (variant ++ ((if br2 then [']'] else []) ++ (w ++ rest))) := by
      simp
    rw [hz, emotionMatch, if_pos rfl, hcore]
  | false =>
    have hz : ((if (false : Bool) then ['['] else []) ++ (variant
        ++ ((if br2 then [']'] else []) ++ (w ++ rest))))
        = variant ++ ((if br2 then [']'] else []) ++ (w ++ rest)) := by
      simp
    rw [hz]
    have hvne : variant ≠ [] := by
      intro hh
      rw [hh] at hv
      exact emotions_ne_nil e he (by simpa using hv.symm)
    match variant, hv, hcore with
    | a :: as, hv, hcore =>
      have hane : ¬ a = '[' := by
        intro hh
        have hhead : e.data.head? = some '[' := by
          rw [← hv, hh]
          show some (asciiLower '[') = some '['
          decide
        exact emotions_head_no_bracket e he hhead
      rw [List.cons_append, emotionMatch, if_neg hane]
      exact hcore

theorem emotionCore_some_begins (t v r : List Char)
    (h : emotionCore t = some (v, r)) : ∃ e ∈ EMOTIONS, ciBegins e t := by
  rw [emotionCore] at h
  match htry : tryMarkers EMOTIONS t with
  | none => rw [htry] at h; cases h
  | some (v', r') =>
    rw [htry] at h
    obtain ⟨e, he, ht, hv⟩ := tryMarkers_some_exists EMOTIONS t v' r' htry
    refine ⟨e, he, ?_⟩
    unfold ciBegins
    have hlen : v'.length = e.data.length := by
      rw [← hv]
      exact (List.length_map _ _).symm
    rw [ht, ← hlen, List.take_left, hv]

theorem emotionMatch_some_exists (s v r : List Char)
    (h : emotionMatch s = some (v, r)) :
    (∃ e ∈ EMOTIONS, ciBegins e s)
      ∨ (s.head? = some '[' ∧ ∃ e ∈ EMOTIONS, ciBegins e s.tail) := by
  match s with
  | [] =>
    rw [emotionMatch] at h
    exact Or.inl (emotionCore_some_begins [] v r h)
  | c :: t =>
    rw [emotionMatch] at h
    by_cases hc : c = '['
    · rw [if_pos hc] at h
      match hcore : emotionCore t with
      | some (v', r') =>
        right
        refine ⟨by simp [hc], ?_⟩
        exact emotionCore_some_begins t v' r' hcore
      | none =>
        rw [hcore] at h
        exact Or.inl (emotionCore_some_begins (c :: t) v r h)
    · rw [if_neg hc] at h
      exact Or.inl (emotionCore_some_begins (c :: t) v r h)

/-- C1 counterexample: the code does not lower-case the matched marker
(`"HAPPY hi"` parses to emotion `"HAPPY"`, not `"happy"`), and a leading
bracket without its closing partner is still consumed (`"[happy hi"`
parses to `("happy", "hi")`, not to the untouched
`("neutral", "[happy hi")` the claim's otherwise-branch requires). -/
theorem C1_emotion_parser_counterexample :
    (parseEmotionTag "HAPPY hi" = ("HAPPY", "hi")
      ∧ parseEmotionTag "HAPPY hi" ≠ ("happy", "hi"))
    ∧ (parseEmotionTag "[happy hi" = ("happy", "hi")
      ∧ parseEmotionTag "[happy hi" ≠ ("neutral", "[happy hi")) := by
  refine ⟨⟨by decide, by decide⟩, by decide, by decide⟩

/-- C1 (amended): if the input starts with an optional `[`, then
(case-insensitively) a marker of the vocabulary, then an optional `]`
(each bracket independently optional), then any run of whitespace, the
parser returns the marker *as it appears in the input* (case preserved,
not lower-cased) and the remainder; if the input does not begin — even
after an optional `[` — with any marker case-insensitively, it returns
`(neutral, input unchanged)`; and for every lower-case marker `e`,
parsing `"[e] rest of text"` yields `(e, "rest of text")`. -/
theorem C1_emotion_parser_amended (s : String) :
    (∀ e ∈ EMOTIONS, ∀ (br1 br2 : Bool) (variant w rest : List Char),
      s.data = (if br1 then ['['] else []) ++ (variant
          ++ ((if br2 then [']'] else []) ++ (w ++ rest))) →
      variant.map asciiLower = e.data →
      (∀ c ∈ w, isPySpace c = true) →
      (∀ c, rest.head? = some c → isPySpace c = false) →
      (br2 = false → w = [] → rest.head? ≠ some ']') →
      parseEmotionTag s = (⟨variant⟩, ⟨rest⟩))
    ∧ ((¬ ∃ e ∈ EMOTIONS, ciBegins e s.data
          ∨ (s.data.head? = some '[' ∧ ciBegins e s.data.tail)) →
        parseEmotionTag s = ("neutral", s))
    ∧ (∀ e ∈ EMOTIONS,
        parseEmotionTag ("[" ++ e ++ "] rest of text")
          = (e, "rest of text")) := by
  refine ⟨?_, ?_, by decide⟩
  · intro e he br1 br2 variant w rest hs hv hw hr hbr2
    have hm : emotionMatch s.data = some (variant, rest) := by
      rw [hs]
      exact emotionMatch_decomposed e he br1 br2 variant w rest hv hw hr hbr2
    rw [parseEmotionTag, hm]
  · intro hno
    match hm : emotionMatch s.data with
    | some (v, r) =>
      exfalso
      rcases emotionMatch_some_exists s.data v r hm with h | ⟨h1, h2⟩
      · obtain ⟨e, he, hb⟩ := h
        exact hno ⟨e, he, Or.inl hb⟩
      · obtain ⟨e, he, hb⟩ := h2
        exact hno ⟨e, he, Or.inr ⟨h1, hb⟩⟩
    | none =>
      rw [parseEmotionTag, hm]

/-- Witness for C1 (amended) at a concrete decomposed input. -/
theorem C1_emotion_parser_amended_witness :
    parseEmotionTag "[Sad]  ok!" = ("Sad", "ok!") := by
  have h := (C1_emotion_parser_amended "[Sad]  ok!").1 "sad" (by decide)
    true true "Sad".data "  ".data "ok!".data (by decide) (by decide)
    (by decide) (by decide) (by decide)
  exact h

/-! ### Lemmas and claims about the conversation session -/

theorem pyStrip_all_space (s : String) (h : ∀ c ∈ s.data, isPySpace c = true) :
    pyStrip s = "" := by
  rw [pyStrip, pyStripChars]
  have h1 : s.data.dropWhile isPySpace = [] := List.dropWhile_eq_nil_iff.mpr h
  rw [h1]
  rfl

/-- C7: a `ping` in any session state (against any collaborators, any
transport state with the next send deliverable) produces exactly one
`pong`, nothing else, and the loop continues unchanged.  (The handler has
no per-session mutable state; continuing the loop is the unchanged
state.) -/
theorem C7_ping_pong (c : Collab) (t : ℕ → Bool) (ht : t 0 = true) :
    sessionStep c t (.msg .ping) = ([.sent .pong], .continueLoop)
    ∧ outMsgs (sessionStep c t (.msg .ping)).1 = [.pong] := by
  have h : sessionStep c t (.msg .ping) = ([.sent .pong], .continueLoop) := by
    simp [sessionStep, handleMsg, trySend, ht]
  refine ⟨h, ?_⟩
  rw [h]
  rfl

/-- Witness for C7 on a concrete collaborator and reliable transport. -/
theorem C7_ping_pong_witness :
    allOk 0 = true
    ∧ sessionStep successCollab allOk (.msg .ping)
        = ([.sent .pong], .continueLoop) :=
  ⟨rfl, (C7_ping_pong successCollab allOk rfl).1⟩

/-- C3: when the ASR model recognises only whitespace (or nothing), the
handler emits `processing`, then the pipeline emits exactly
`transcript("")` followed by `error("could not understand audio")`, the
LLM and TTS collaborators are never invoked, and the loop continues. -/
theorem C3_empty_transcript (c : Collab) (t : ℕ → Bool)
    (a fmt : String) (vid : Option String) (bytes wav : String)
    (segs : List String)
    (ht : ∀ k, t k = true) (ha : a ≠ "")
    (h1 : c.decodeBase64 a = .ok bytes)
    (h2 : c.decodeAudio bytes fmt = .ok wav)
    (h3 : c.whisper wav = .ok segs)
    (hsp : ∀ ch ∈ (String.intercalate " " segs).data, isPySpace ch = true) :
    sessionStep c t (.msg (.audioData (some a) fmt vid))
      = ([.sent .processing, .tempCreated, .sttCalled wav,
          .sent (.transcript ""),
          .sent (.error "could not understand audio"),
          .tempDeleted], .continueLoop)
    ∧ (∀ ev ∈ (sessionStep c t (.msg (.audioData (some a) fmt vid))).1,
        isLLMCall ev = false ∧ isTTSCall ev = false) := by
  have hempty : sttTranscribe segs = "" := by
    rw [sttTranscribe]
    exact pyStrip_all_space _ hsp
  have key : sessionStep c t (.msg (.audioData (some a) fmt vid))
      = ([.sent .processing, .tempCreated, .sttCalled wav,
          .sent (.transcript ""),
          .sent (.error "could not understand audio"),
          .tempDeleted], .continueLoop) := by
    have hps : pyStrip "" = "" := by decide
    simp only [sessionStep, handleMsg, handleAudioData, runPipeline,
      pipelineBody, trySend, ht, h1, h2, h3, hempty, hps, if_neg ha]
    simp
  refine ⟨key, ?_⟩
  rw [key]
  intro ev hev
  fin_cases hev <;> exact ⟨rfl, rfl⟩

/-- Witness for C3 on a concrete silent collaborator. -/
theorem C3_empty_transcript_witness :
    sessionStep silentCollab allOk (.msg (.audioData (some "blob") "webm" none))
      = ([.sent .processing, .tempCreated, .sttCalled "WAV",
          .sent (.transcript ""),
          .sent (.error "could not understand audio"),
          .tempDeleted], .continueLoop) :=
  (C3_empty_transcript silentCollab allOk "blob" "webm" none "BYTES" "WAV"
    ["", " "] (fun _ => rfl) (by decide) rfl rfl rfl (by decide)).1

/-- The complete event trace of a fully successful pipeline run. -/
theorem sessionStep_success (c : Collab) (t : ℕ → Bool)
    (a fmt : String) (vid : Option String) (bytes wav : String)
    (segs : List String) (reply mp3 : String) (dec : DecodedAudio)
    (ht : ∀ k, t k = true) (ha : a ≠ "")
    (h1 : c.decodeBase64 a = .ok bytes)
    (h2 : c.decodeAudio bytes fmt = .ok wav)
    (h3 : c.whisper wav = .ok segs)
    (hne : ¬ pyStrip (sttTranscribe segs) = "")
    (h4 : c.llmGenerate (sttTranscribe segs) = .ok reply)
    (h5 : c.ttsSynthesize (parseEmotionTag reply).2 vid = .ok mp3)
    (h6 : c.decodeMp3 mp3 = .ok dec) :
    sessionStep c t (.msg (.audioData (some a) fmt vid))
      = ([.sent .processing, .tempCreated, .sttCalled wav,
          .sent (.transcript (sttTranscribe segs)),
          .llmCalled (sttTranscribe segs),
          .ttsCalled (parseEmotionTag reply).2 vid,
          .envelopeExtracted,
          .sent (.audio (c.encodeBase64 mp3) (parseEmotionTag reply).1
            (extract_amplitude_envelope dec) 50),
          .tempDeleted], .continueLoop) := by
  simp only [sessionStep, handleMsg, handleAudioData, runPipeline,
    pipelineBody, trySend, ht, h1, h2, h3, hne, h4, h5, h6, if_neg ha]
  simp

/-- C8: in a fully successful run the `transcript` message is emitted
directly after the ASR call and before the LLM, TTS and
envelope-extraction steps, and the single complete `audio` message is
emitted only after envelope extraction, as the exact trace shows. -/
theorem C8_message_ordering (c : Collab) (t : ℕ → Bool)
    (a fmt : String) (vid : Option String) (bytes wav : String)
    (segs : List String) (reply mp3 : String) (dec : DecodedAudio)
    (ht : ∀ k, t k = true) (ha : a ≠ "")
    (h1 : c.decodeBase64 a = .ok bytes)
    (h2 : c.decodeAudio bytes fmt = .ok wav)
    (h3 : c.whisper wav = .ok segs)
    (hne : ¬ pyStrip (sttTranscribe segs) = "")
    (h4 : c.llmGenerate (sttTranscribe segs) = .ok reply)
    (h5 : c.ttsSynthesize (parseEmotionTag reply).2 vid = .ok mp3)
    (h6 : c.decodeMp3 mp3 = .ok dec) :
    sessionStep c t (.msg (.audioData (some a) fmt vid))
      = ([.sent .processing, .tempCreated, .sttCalled wav,
          .sent (.transcript (sttTranscribe segs)),
          .llmCalled (sttTranscribe segs),
          .ttsCalled (parseEmotionTag reply).2 vid,
          .envelopeExtracted,
          .sent (.audio (c.encodeBase64 mp3) (parseEmotionTag reply).1
            (extract_amplitude_envelope dec) 50),
          .tempDeleted], .continueLoop)
    ∧ outMsgs (sessionStep c t (.msg (.audioData (some a) fmt vid))).1
      = [.processing, .transcript (sttTranscribe segs),
          .audio (c.encodeBase64 mp3) (parseEmotionTag reply).1
            (extract_amplitude_envelope dec) 50] := by
  have key := sessionStep_success c t a fmt vid bytes wav segs reply mp3 dec
    ht ha h1 h2 h3 hne h4 h5 h6
  refine ⟨key, ?_⟩
  rw [key]
  rfl

/-- Witness for C8 on the all-success concrete collaborator. -/
theorem C8_message_ordering_witness :
    sessionStep successCollab allOk (.msg (.audioData (some "blob") "webm" none))
      = ([.sent .processing, .tempCreated, .sttCalled "WAV",
          .sent (.transcript (sttTranscribe ["hello there"])),
          .llmCalled (sttTranscribe ["hello there"]),
          .ttsCalled (parseEmotionTag "ok").2 none,
          .envelopeExtracted,
          .sent (.audio (successCollab.encodeBase64 "MP3")
            (parseEmotionTag "ok").1
            (extract_amplitude_envelope ⟨[], 1, 22050⟩) 50),
          .tempDeleted], .continueLoop) :=
  (C8_message_ordering successCollab allOk "blob" "webm" none "BYTES" "WAV"
    ["hello there"] "ok" "MP3" ⟨[], 1, 22050⟩ (fun _ => rfl) (by decide)
    rfl rfl rfl (by decide) rfl rfl rfl).1

/-- Under a reliable transport no handler path raises a
`WebSocketDisconnect`. -/
theorem handleMsg_no_disconnect (c : Collab) (t : ℕ → Bool)
    (ht : ∀ k, t k = true) (m : InMsg) :
    (handleMsg c t m).2.2 ≠ some PyErr.disconnect := by
  match m with
  | .malformed => simp [handleMsg]
  | .other => simp [handleMsg]
  | .ping => simp [handleMsg, trySend, ht]
  | .audioData audio fmt vid =>
    simp only [handleMsg, handleAudioData, runPipeline, pipelineBody,
      trySend, ht]
    repeat' split
    any_goals simp_all

/-- Under a reliable transport, handling any text frame continues the
loop. -/
theorem sessionStep_msg_continues (c : Collab) (t : ℕ → Bool)
    (ht : ∀ k, t k = true) (m : InMsg) :
    (sessionStep c t (.msg m)).2 = .continueLoop := by
  have hnd := handleMsg_no_disconnect c t ht m
  match hm : handleMsg c t m with
  | (ev, k, none) => simp [sessionStep, hm]
  | (ev, k, some .disconnect) =>
    exfalso
    apply hnd
    rw [hm]
  | (ev, k, some (.exc e)) => simp [sessionStep, hm, trySend, ht]

/-- C4: every error raised during a pipeline run — base64 decoding,
audio normalisation, ASR, LLM, TTS, or the envelope extractor's MP3
decode — is caught by the loop, converted into exactly one outbound
`error` message carrying the exception's message (sent after the temp
file is released when one exists), and the loop continues to accept
messages; under a reliable transport the loop stops only on an inbound
disconnect. -/
theorem C4_stage_failures (c : Collab) (t : ℕ → Bool) (ht : ∀ k, t k = true) :
    (∀ (a fmt : String) (vid : Option String) (e : String), a ≠ "" →
      c.decodeBase64 a = .error e →
      sessionStep c t (.msg (.audioData (some a) fmt vid))
        = ([.sent .processing, .sent (.error e)], .continueLoop))
    ∧ (∀ (a fmt : String) (vid : Option String) (bytes e : String), a ≠ "" →
        c.decodeBase64 a = .ok bytes → c.decodeAudio bytes fmt = .error e →
        sessionStep c t (.msg (.audioData (some a) fmt vid))
          = ([.sent .processing, .sent (.error e)], .continueLoop))
    ∧ (∀ (a fmt : String) (vid : Option String) (bytes wav e : String),
        a ≠ "" →
        c.decodeBase64 a = .ok bytes → c.decodeAudio bytes fmt = .ok wav →
        c.whisper wav = .error e →
        sessionStep c t (.msg (.audioData (some a) fmt vid))
          = ([.sent .processing, .tempCreated, .sttCalled wav, .tempDeleted,
              .sent (.error e)], .continueLoop))
    ∧ (∀ (a fmt : String) (vid : Option String) (bytes wav e : String)
        (segs : List String), a ≠ "" →
        c.decodeBase64 a = .ok bytes → c.decodeAudio bytes fmt = .ok wav →
        c.whisper wav = .ok segs → ¬ pyStrip (sttTranscribe segs) = "" →
        c.llmGenerate (sttTranscribe segs) = .error e →
        sessionStep c t (.msg (.audioData (some a) fmt vid))
          = ([.sent .processing, .tempCreated, .sttCalled wav,
              .sent (.transcript (sttTranscribe segs)),
              .llmCalled (sttTranscribe segs), .tempDeleted,
              .sent (.error e)], .continueLoop))
    ∧ (∀ (a fmt : String) (vid : Option String) (bytes wav reply e : String)
        (segs : List String), a ≠ "" →
        c.decodeBase64 a = .ok bytes → c.decodeAudio bytes fmt = .ok wav →
        c.whisper wav = .ok segs → ¬ pyStrip (sttTranscribe segs) = "" →
        c.llmGenerate (sttTranscribe segs) = .ok reply →
        c.ttsSynthesize (parseEmotionTag reply).2 vid = .error e →
        sessionStep c t (.msg (.audioData (some a) fmt vid))
          = ([.sent .processing, .tempCreated, .sttCalled wav,
              .sent (.transcript (sttTranscribe segs)),
              .llmCalled (sttTranscribe segs),
              .ttsCalled (parseEmotionTag reply).2 vid, .tempDeleted,
              .sent (.error e)], .continueLoop))
    ∧ (∀ (a fmt : String) (vid : Option String)
        (bytes wav reply mp3 e : String) (segs : List String), a ≠ "" →
        c.decodeBase64 a = .ok bytes → c.decodeAudio bytes fmt = .ok wav →
        c.whisper wav = .ok segs → ¬ pyStrip (sttTranscribe segs) = "" →
        c.llmGenerate (sttTranscribe segs) = .ok reply →
        c.ttsSynthesize (parseEmotionTag reply).2 vid = .ok mp3 →
        c.decodeMp3 mp3 = .error e →
        sessionStep c t (.msg (.audioData (some a) fmt vid))
          = ([.sent .processing, .tempCreated, .sttCalled wav,
              .sent (.transcript (sttTranscribe segs)),
              .llmCalled (sttTranscribe segs),
              .ttsCalled (parseEmotionTag reply).2 vid, .tempDeleted,
              .sent (.error e)], .continueLoop))
    ∧ (∀ inb : Inbound, (sessionStep c t inb).2 = .stopLoop →
        inb = .disconnect) := by
  refine ⟨?_, ?_, ?_, ?_, ?_, ?_, ?_⟩
  · intro a fmt vid e ha h1
    simp only [sessionStep, handleMsg, handleAudioData, trySend, ht, h1,
      if_neg ha]
    simp
  · intro a fmt vid bytes e ha h1 h2
    simp only [sessionStep, handleMsg, handleAudioData, trySend, ht, h1, h2,
      if_neg ha]
    simp
  · intro a fmt vid bytes wav e ha h1 h2 h3
    simp only [sessionStep, handleMsg, handleAudioData, runPipeline,
      pipelineBody, trySend, ht, h1, h2, h3, if_neg ha]
    simp
  · intro a fmt vid bytes wav e segs ha h1 h2 h3 hne h4
    simp only [sessionStep, handleMsg, handleAudioData, runPipeline,
      pipelineBody, trySend, ht, h1, h2, h3, hne, h4, if_neg ha]
    simp
  · intro a fmt vid bytes wav reply e segs ha h1 h2 h3 hne h4 h5
    simp only [sessionStep, handleMsg, handleAudioData, runPipeline,
      pipelineBody, trySend, ht, h1, h2, h3, hne, h4, h5, if_neg ha]
    simp
  · intro a fmt vid bytes wav reply mp3 e segs ha h1 h2 h3 hne h4 h5 h6
    simp only [sessionStep, handleMsg, handleAudioData, runPipeline,
      pipelineBody, trySend, ht, h1, h2, h3, hne, h4, h5, h6, if_neg ha]
    simp
  · intro inb hstop
    match inb with
    | .disconnect => rfl
    | .msg m =>
      rw [sessionStep_msg_continues c t ht m] at hstop
      cases hstop

/-- Witness for C4 on a concrete collaborator whose LLM stage raises. -/
theorem C4_stage_failures_witness :
    sessionStep failingLLMCollab allOk
        (.msg (.audioData (some "blob") "webm" none))
      = ([.sent .processing, .tempCreated, .sttCalled "WAV",
          .sent (.transcript (sttTranscribe ["hello there"])),
          .llmCalled (sttTranscribe ["hello there"]), .tempDeleted,
          .sent (.error "llm down")], .continueLoop) :=
  (C4_stage_failures failingLLMCollab allOk (fun _ => rfl)).2.2.2.1
    "blob" "webm" none "BYTES" "WAV" "llm down" ["hello there"]
    (by decide) rfl rfl rfl (by decide) rfl

/-- C5: for every collaborator behaviour, every transport behaviour
(including send failures at any point, i.e. mid-run disconnects) and
every inbound message, the trace of one loop iteration contains exactly
as many temp-artifact creations as deletions: the temporary WAV file
never survives its pipeline run. -/
theorem C5_temp_cleanup (c : Collab) (t : ℕ → Bool) (inb : Inbound) :
    ((sessionStep c t inb).1.filter isTempCreated).length
      = ((sessionStep c t inb).1.filter isTempDeleted).length := by
  match inb with
  | .disconnect => rfl
  | .msg .malformed => rfl
  | .msg .other => rfl
  | .msg .ping =>
    cases h0 : t 0 <;>
      simp [sessionStep, handleMsg, trySend, isTempCreated, isTempDeleted, *]
  | .msg (.audioData audio fmt vid) =>
    match audio with
    | none =>
      cases h0 : t 0 <;>
        simp [sessionStep, handleMsg, handleAudioData, trySend,
          isTempCreated, isTempDeleted, *]
    | some a =>
      by_cases hae : a = ""
      · cases h0 : t 0 <;>
          simp [sessionStep, handleMsg, handleAudioData, trySend,
            isTempCreated, isTempDeleted, *]
      · cases h0 : t 0 with
        | false =>
          simp [sessionStep, handleMsg, handleAudioData, trySend,
            isTempCreated, isTempDeleted, *]
        | true =>
          match hb : c.decodeBase64 a with
          | .error e =>
            cases h1 : t 1 <;>
              simp [sessionStep, handleMsg, handleAudioData, trySend,
                isTempCreated, isTempDeleted, *]
          | .ok bytes =>
            match hda : c.decodeAudio bytes fmt with
            | .error e =>
              cases h1 : t 1 <;>
                simp [sessionStep, handleMsg, handleAudioData, trySend,
                  isTempCreated, isTempDeleted, *]
            | .ok wav =>
              match hw : c.whisper wav with
              | .error e =>
                cases h1 : t 1 <;>
                  simp [sessionStep, handleMsg, handleAudioData, runPipeline,
                    pipelineBody, trySend, isTempCreated, isTempDeleted, *]
              | .ok segs =>
                cases h1 : t 1 with
                | false =>
                  simp [sessionStep, handleMsg, handleAudioData, runPipeline,
                    pipelineBody, trySend, isTempCreated, isTempDeleted, *]
                | true =>
                  by_cases hstrip : pyStrip (sttTranscribe segs) = ""
                  · cases h2 : t 2 <;>
                      simp [sessionStep, handleMsg, handleAudioData,
                        runPipeline, pipelineBody, trySend, isTempCreated,
                        isTempDeleted, *]
                  · match hl : c.llmGenerate (sttTranscribe segs) with
                    | .error e =>
                      cases h2 : t 2 <;>
                        simp [sessionStep, handleMsg, handleAudioData,
                          runPipeline, pipelineBody, trySend, isTempCreated,
                          isTempDeleted, *]
                    | .ok reply =>
                      match hts : c.ttsSynthesize (parseEmotionTag reply).2
                          vid with
                      | .error e =>
                        cases h2 : t 2 <;>
                          simp [sessionStep, handleMsg, handleAudioData,
                            runPipeline, pipelineBody, trySend, isTempCreated,
                            isTempDeleted, *]
                      | .ok mp3 =>
                        match hmp : c.decodeMp3 mp3 with
                        | .error e =>
                          cases h2 : t 2 <;>
                            simp [sessionStep, handleMsg, handleAudioData,
                              runPipeline, pipelineBody, trySend,
                              isTempCreated, isTempDeleted, *]
                        | .ok dec =>
                          cases h2 : t 2 <;>
                            simp [sessionStep, handleMsg, handleAudioData,
                              runPipeline, pipelineBody, trySend,
                              isTempCreated, isTempDeleted, *]

/-- C10: every `audio` message that can ever be sent carries
`amplitudeBucketMs = 50`, and its amplitude sequence is exactly the
envelope extracted at a 50 ms bucket duration from the synthesized audio
whose base64 encoding the same message carries: the reported bucket
duration and the envelope's actual bucketing always agree. -/
theorem C10_bucket_duration (c : Collab) (t : ℕ → Bool) (inb : Inbound) :
    ∀ (ab em : String) (amps : List ℝ) (ms : ℕ),
      Event.sent (OutMsg.audio ab em amps ms) ∈ (sessionStep c t inb).1 →
      ms = 50 ∧ ∃ (mp3 : String) (dec : DecodedAudio),
        ab = c.encodeBase64 mp3 ∧ c.decodeMp3 mp3 = .ok dec
        ∧ amps = extract_amplitude_envelope dec 50 := by
  intro ab em amps ms hmem
  match inb with
  | .disconnect => simp [sessionStep] at hmem
  | .msg .malformed => simp [sessionStep, handleMsg] at hmem
  | .msg .other => simp [sessionStep, handleMsg] at hmem
  | .msg .ping =>
    cases h0 : t 0 <;>
      simp [sessionStep, handleMsg, trySend, *] at hmem
  | .msg (.audioData audio fmt vid) =>
    match audio with
    | none =>
      cases h0 : t 0 <;>
        simp [sessionStep, handleMsg, handleAudioData, trySend, *] at hmem
    | some a =>
      by_cases hae : a = ""
      · cases h0 : t 0 <;>
          simp [sessionStep, handleMsg, handleAudioData, trySend, *] at hmem
      · cases h0 : t 0 with
        | false =>
          simp [sessionStep, handleMsg, handleAudioData, trySend, *] at hmem
        | true =>
          match hb : c.decodeBase64 a with
          | .error e =>
            cases h1 : t 1 <;>
              simp [sessionStep, handleMsg, handleAudioData, trySend, *]
                at hmem
          | .ok bytes =>
            match hda : c.decodeAudio bytes fmt with
            | .error e =>
              cases h1 : t 1 <;>
                simp [sessionStep, handleMsg, handleAudioData, trySend, *]
                  at hmem
            | .ok wav =>
              match hw : c.whisper wav with
              | .error e =>
                cases h1 : t 1 <;>
                  simp [sessionStep, handleMsg, handleAudioData, runPipeline,
                    pipelineBody, trySend, *] at hmem
              | .ok segs =>
                cases h1 : t 1 with
                | false =>
                  simp [sessionStep, handleMsg, handleAudioData, runPipeline,
                    pipelineBody, trySend, *] at hmem
                | true =>
                  by_cases hstrip : pyStrip (sttTranscribe segs) = ""
                  · cases h2 : t 2 <;>
                      simp [sessionStep, handleMsg, handleAudioData,
                        runPipeline, pipelineBody, trySend, *] at hmem
                  · match hl : c.llmGenerate (sttTranscribe segs) with
                    | .error e =>
                      cases h2 : t 2 <;>
                        simp [sessionStep, handleMsg, handleAudioData,
                          runPipeline, pipelineBody, trySend, *] at hmem
                    | .ok reply =>
                      match hts : c.ttsSynthesize (parseEmotionTag reply).2
                          vid with
                      | .error e =>
                        cases h2 : t 2 <;>
                          simp [sessionStep, handleMsg, handleAudioData,
                            runPipeline, pipelineBody, trySend, *] at hmem
                      | .ok mp3 =>
                        match hmp : c.decodeMp3 mp3 with
                        | .error e =>
                          cases h2 : t 2 <;>
                            simp [sessionStep, handleMsg, handleAudioData,
                              runPipeline, pipelineBody, trySend, *] at hmem
                        | .ok dec =>
                          cases h2 : t 2 with
                          | false =>
                            simp [sessionStep, handleMsg, handleAudioData,
                              runPipeline, pipelineBody, trySend, *] at hmem
                          | true =>
                            simp only [sessionStep, handleMsg,
                              handleAudioData, runPipeline, pipelineBody,
                              trySend, h0, h1, h2, hb, hda, hw, hl, hts, hmp,
                              if_neg hae, if_neg hstrip, if_true] at hmem
                            simp at hmem
                            obtain ⟨hab, hem, hamps, hms⟩ := hmem
                            exact ⟨hms, mp3, dec, hab, hmp, hamps⟩

/-- Witness for C10 at the concrete all-success run. -/
theorem C10_bucket_duration_witness :
    (50 : ℕ) = 50 ∧ ∃ (mp3 : String) (dec : DecodedAudio),
      successCollab.encodeBase64 "MP3" = successCollab.encodeBase64 mp3
      ∧ successCollab.decodeMp3 mp3 = .ok dec
      ∧ extract_amplitude_envelope ⟨[], 1, 22050⟩
          = extract_amplitude_envelope dec 50 := by
  apply C10_bucket_duration successCollab allOk
    (.msg (.audioData (some "blob") "webm" none))
    (successCollab.encodeBase64 "MP3") (parseEmotionTag "ok").1
    (extract_amplitude_envelope ⟨[], 1, 22050⟩) 50
  rw [sessionStep_success successCollab allOk "blob" "webm" none "BYTES"
    "WAV" ["hello there"] "ok" "MP3" ⟨[], 1, 22050⟩ (fun _ => rfl)
    (by decide) rfl rfl rfl (by decide) rfl rfl rfl]
  simp

end SAI
